import Mathlib

/-
Verification of the renewal-opportunity dashboard aggregation core
(src/renewedCountDash.py).

The embedding models the pure aggregation pipeline of the source file:

  - get_stage_metadata / get_loss_reasons  -> stageMetadata, lossReasons
  - the stage-count aggregation (lines 156-198): the SOQL GROUP BY StageName
    produces one (name, count) group per distinct stage name of the input
    records; the Python loop enriches each group with catalog metadata
    (fallback probability 0 / order 99 / category Unknown), zero-fills the
    missing catalog stages and sorts by the Order column
  - the loss-reason aggregation (lines 204-237): SOQL filters to
    StageName = Closed Lost, groups by Loss_Reason__c ordered by count
    descending; Python normalizes a falsy reason (null or empty string) to
    Not Specified, zero-fills the enumerated reasons and sorts by count
    descending
  - the weekly aggregation (lines 256-311): each record closeDate string is
    parsed with strptime of format %Y-%m-%d (a parse failure raises and,
    through the try/except of connect_to_salesforce, aborts the whole pass),
    bucketed by the ISO-8601 week key f"{year}-W{week:02d}", and per week
    the code emits total count, one column per stage name (column names
    sanitized character-wise to alphanumeric-or-underscore, later columns
    overwriting earlier ones on a name collision), ClosedWon, ClosedLost,
    OtherStages and WinRate
  - the summary KPIs (lines 313-317 and 360) and the adjacent-stage
    conversion table (lines 533-556)

pandas detail that matters: pd.DataFrame([]) has no columns at all, so the
column accesses stage_df[StageName] (line 186) and
loss_reason_df[Loss_Reason] (line 228) raise KeyError when the respective
record list is empty; the try/except of connect_to_salesforce then returns
four empty tables and zero KPIs (lines 321-323).  This is modelled with
Except: the empty-data cases return an error value, and connectToSalesforce
maps any error to the all-empty result.

Machine integers do not overflow here (Python ints are unbounded), so counts
are Nat, the one subtraction that Python performs on ints is done in Int,
and the two rates are Rat.
-/

namespace Renewed

/-- One opportunity record as consumed by the aggregation core: the fields
selected by the SOQL queries (Id, CloseDate as the raw string the CRM
returns, StageName, Loss_Reason__c). -/
structure Record where
  id : String
  closeDate : String
  stageName : String
  lossReason : Option String
deriving DecidableEq

/-- Per-stage catalog metadata, the value part of get_stage_metadata. -/
structure StageMeta where
  probability : Nat
  order : Nat
  category : String
deriving DecidableEq

/-- The stage catalog of get_stage_metadata (lines 23-39), in the insertion
order of the Python dict. -/
def stageMetadata : List (String × StageMeta) :=
  [ ("New", ⟨10, 1, "Open"⟩),
    ("Information Gathering", ⟨20, 2, "Open"⟩),
    ("Rating", ⟨30, 3, "Open"⟩),
    ("Proposal Generation", ⟨40, 4, "Open"⟩),
    ("Decision Pending", ⟨50, 5, "Open"⟩),
    ("Pre-Bind Review", ⟨75, 6, "Open"⟩),
    ("Quote to Bind", ⟨85, 7, "Open"⟩),
    ("Binding", ⟨85, 8, "Open"⟩),
    ("Billing", ⟨95, 9, "Open"⟩),
    ("Post-Binding", ⟨98, 10, "Open"⟩),
    ("Closed Won", ⟨100, 11, "Closed/Won"⟩),
    ("Closed Lost", ⟨0, 12, "Closed/Lost"⟩) ]

/-- The stage names of the catalog, in catalog order (which is also
ascending order of the order field). -/
def catalogNames : List String := stageMetadata.map (fun p => p.1)

/-- The enumerated loss reasons of get_loss_reasons (lines 42-63). -/
def lossReasons : List String :=
  [ "4 Point Issues",
    "AOR",
    "Choosing to Self-Insure",
    "Flood not required - for flood only",
    "I was lazy",
    "No Buyers Information Received",
    "No Inspections Received",
    "No Market",
    "No Response from Buyer",
    "Paid off Mortgage",
    "Rate",
    "Rate / Went with another agency",
    "Rate - No Updated Inspections Received",
    "Sale Fell Through",
    "Service / went with another agency",
    "Sold",
    "Unknown",
    "Property Damaged Or Lost" ]

/-- stage_metadata.get(stage_name, default) of line 172: catalog lookup with
the synthetic fallback definition. -/
def lookupStage (name : String) : StageMeta :=
  match stageMetadata.find? (fun p => p.1 == name) with
  | some p => p.2
  | none => ⟨0, 99, "Unknown"⟩

/-- Helper: keep the first occurrence of every element, drop later
duplicates.  This is the set of group keys of a SQL GROUP BY, in first
appearance order (structurally recursive so that it evaluates in the
kernel). -/
def dedupAux {α : Type} [DecidableEq α] (seen : List α) : List α → List α
  | [] => []
  | x :: xs => if x ∈ seen then dedupAux seen xs else x :: dedupAux (x :: seen) xs

/-- Distinct elements of a list, first occurrences kept in order. -/
def dedup {α : Type} [DecidableEq α] (l : List α) : List α := dedupAux [] l

theorem mem_dedupAux {α : Type} [DecidableEq α] (l : List α) :
    ∀ (seen : List α) (a : α), a ∈ dedupAux seen l ↔ a ∈ l ∧ a ∉ seen := by
  induction l with
  | nil => intro seen a; simp [dedupAux]
  | cons x xs ih =>
    intro seen a
    by_cases hx : x ∈ seen
    · simp only [dedupAux, if_pos hx, ih, List.mem_cons]
      constructor
      · rintro ⟨h1, h2⟩; exact ⟨Or.inr h1, h2⟩
      · rintro ⟨h1 | h1, h2⟩
        · exact absurd (h1 ▸ hx) h2
        · exact ⟨h1, h2⟩
    · simp only [dedupAux, if_neg hx, List.mem_cons, ih]
      constructor
      · rintro (rfl | ⟨h1, h2⟩)
        · exact ⟨Or.inl rfl, hx⟩
        · refine ⟨Or.inr h1, fun hc => h2 (Or.inr hc)⟩
      · rintro ⟨rfl | h1, h2⟩
        · exact Or.inl rfl
        · by_cases hax : a = x
          · exact Or.inl hax
          · exact Or.inr ⟨h1, fun hc => hc.elim hax h2⟩

theorem mem_dedup {α : Type} [DecidableEq α] (l : List α) (a : α) :
    a ∈ dedup l ↔ a ∈ l := by
  simp [dedup, mem_dedupAux]

theorem nodup_dedupAux {α : Type} [DecidableEq α] (l : List α) :
    ∀ seen : List α, (dedupAux seen l).Nodup := by
  induction l with
  | nil => intro seen; simp [dedupAux]
  | cons x xs ih =>
    intro seen
    by_cases hx : x ∈ seen
    · simpa [dedupAux, if_pos hx] using ih seen
    · simp only [dedupAux, if_neg hx]
      refine List.nodup_cons.2 ⟨?_, ih (x :: seen)⟩
      intro hc
      exact ((mem_dedupAux xs (x :: seen) x).1 hc).2 (List.mem_cons_self x seen)

theorem nodup_dedup {α : Type} [DecidableEq α] (l : List α) : (dedup l).Nodup :=
  nodup_dedupAux l []

/-- Stable insertion into a list assumed sorted for the Bool comparator le:
an element already in place (le y x) keeps its position, so equal keys keep
their original relative order, like a stable sort. -/
def insSorted {α : Type} (le : α → α → Bool) (x : α) : List α → List α
  | [] => [x]
  | y :: ys => if le y x then y :: insSorted le x ys else x :: y :: ys

/-- Stable insertion sort with a Bool comparator (elements are inserted
left to right, each landing after the elements already placed that compare
le to it, so ties keep their input order); models the sort_values calls
and the Python sorted builtin on the small tables of the source. -/
def sortBy {α : Type} (le : α → α → Bool) (l : List α) : List α :=
  l.foldl (fun acc x => insSorted le x acc) []

theorem perm_insSorted {α : Type} (le : α → α → Bool) (x : α) (l : List α) :
    List.Perm (insSorted le x l) (x :: l) := by
  induction l with
  | nil => simp [insSorted]
  | cons y ys ih =>
    by_cases h : le y x = true
    · simp only [insSorted, if_pos h]
      exact (List.Perm.cons y ih).trans (List.Perm.swap x y ys)
    · simp only [insSorted, if_neg h]
      exact List.Perm.refl _

theorem perm_foldl_insSorted {α : Type} (le : α → α → Bool) (l : List α) :
    ∀ acc : List α,
      List.Perm (l.foldl (fun acc x => insSorted le x acc) acc) (acc ++ l) := by
  induction l with
  | nil => intro acc; simp
  | cons x xs ih =>
    intro acc
    simp only [List.foldl_cons]
    exact (ih (insSorted le x acc)).trans
      (((perm_insSorted le x acc).append_right xs).trans List.perm_middle.symm)

theorem perm_sortBy {α : Type} (le : α → α → Bool) (l : List α) :
    List.Perm (sortBy le l) l := by
  simpa [sortBy] using perm_foldl_insSorted le l []

theorem length_sortBy {α : Type} (le : α → α → Bool) (l : List α) :
    (sortBy le l).length = l.length :=
  (perm_sortBy le l).length_eq

theorem pairwise_insSorted {α : Type} (le : α → α → Bool) (x : α) (l : List α)
    (htot : ∀ a b : α, le a b = true ∨ le b a = true)
    (htrans : ∀ a b c : α, le a b = true → le b c = true → le a c = true)
    (hl : l.Pairwise (fun a b => le a b = true)) :
    (insSorted le x l).Pairwise (fun a b => le a b = true) := by
  induction l with
  | nil => simp [insSorted]
  | cons y ys ih =>
    rcases List.pairwise_cons.1 hl with ⟨hy, hys⟩
    by_cases h : le y x = true
    · simp only [insSorted, if_pos h]
      refine List.pairwise_cons.2 ⟨?_, ih hys⟩
      intro z hz
      have hz2 := (perm_insSorted le x ys).mem_iff.1 hz
      rcases List.mem_cons.1 hz2 with rfl | hz3
      · exact h
      · exact hy z hz3
    · simp only [insSorted, if_neg h]
      have hxy : le x y = true := by
        rcases htot x y with h1 | h1
        · exact h1
        · exact absurd h1 h
      refine List.pairwise_cons.2 ⟨?_, hl⟩
      intro z hz
      rcases List.mem_cons.1 hz with rfl | hz
      · exact hxy
      · exact htrans x y z hxy (hy z hz)

theorem pairwise_foldl_insSorted {α : Type} (le : α → α → Bool) (l : List α)
    (htot : ∀ a b : α, le a b = true ∨ le b a = true)
    (htrans : ∀ a b c : α, le a b = true → le b c = true → le a c = true) :
    ∀ acc : List α, acc.Pairwise (fun a b => le a b = true) →
      (l.foldl (fun acc x => insSorted le x acc) acc).Pairwise
        (fun a b => le a b = true) := by
  induction l with
  | nil => intro acc hacc; simpa using hacc
  | cons x xs ih =>
    intro acc hacc
    exact ih (insSorted le x acc) (pairwise_insSorted le x acc htot htrans hacc)

theorem pairwise_sortBy {α : Type} (le : α → α → Bool) (l : List α)
    (htot : ∀ a b : α, le a b = true ∨ le b a = true)
    (htrans : ∀ a b c : α, le a b = true → le b c = true → le a c = true) :
    (sortBy le l).Pairwise (fun a b => le a b = true) :=
  pairwise_foldl_insSorted le l htot htrans [] (List.Pairwise.nil)

/-! Stage-count aggregation, lines 156-198 of the source.  The SOQL query
GROUPs BY StageName, so the Python loop of lines 167-180 receives one
(StageName, oppCount) group per distinct stage name among the input
records.  SOQL fixes no group order here; groups are modelled in first
appearance order. -/

/-- The stage names of the input records, in input order. -/
def inputStages (records : List Record) : List String :=
  records.map (fun r => r.stageName)

/-- One row of the stage-count table (the columns of stage_df). -/
structure StageCount where
  stageName : String
  count : Nat
  probability : Nat
  order : Nat
  category : String
deriving DecidableEq

/-- Build a stage_df row from a group key and its count via the catalog
lookup of line 172. -/
def mkDataRow (s : String) (c : Nat) : StageCount :=
  let m := lookupStage s
  ⟨s, c, m.probability, m.order, m.category⟩

/-- The rows of lines 167-180: one per distinct input stage name, enriched
with catalog metadata. -/
def stageRows (records : List Record) : List StageCount :=
  (dedup (inputStages records)).map
    (fun s => mkDataRow s ((inputStages records).count s))

/-- The zero-fill loop of lines 185-195: for every catalog stage that has
no row yet, append a row with count 0 (metadata from the catalog entry), in
catalog order. -/
def missingRows (rows : List StageCount) : List StageCount :=
  stageMetadata.filterMap (fun p =>
    if rows.any (fun r => r.stageName == p.1) then none
    else some ⟨p.1, 0, p.2.probability, p.2.order, p.2.category⟩)

/-- stage_df after the zero-fill concat of lines 185-195 (data rows first,
then the appended missing catalog stages). -/
def zeroFillStages (rows : List StageCount) : List StageCount :=
  rows ++ missingRows rows

/-- Bool comparator for sort_values on the Order column (line 198). -/
def stageLe (a b : StageCount) : Bool := decide (a.order ≤ b.order)

/-- The stage-count aggregation of lines 156-198.  When the record list is
empty, stage_data is empty, pd.DataFrame([]) has no StageName column, and
line 186 raises KeyError; this is the error case. -/
def aggregateStages (records : List Record) : Except String (List StageCount) :=
  let rows := stageRows records
  if rows.isEmpty then Except.error "KeyError: StageName"
  else Except.ok (sortBy stageLe (zeroFillStages rows))

/-! Loss-reason aggregation, lines 204-237.  The SOQL query filters to
StageName = Closed Lost, GROUPs BY Loss_Reason__c (null forms its own
group) and ORDERs BY COUNT(Id) DESC; line 218 then normalizes a falsy
reason (null, or the empty string, both falsy in Python) to Not
Specified, lines 227-234 zero-fill the enumerated reasons, and line 237
sorts by count descending. -/

/-- One row of the loss-reason table. -/
structure ReasonCount where
  reason : String
  count : Nat
deriving DecidableEq

/-- Python truthiness normalization of line 218. -/
def normalizeReason : Option String → String
  | none => "Not Specified"
  | some s => if s = "" then "Not Specified" else s

/-- The (Loss_Reason__c, reasonCount) groups of the SOQL query: one group
per distinct raw reason among the Closed Lost records, ordered by count
descending (stable over first appearance order). -/
def lossGroups (records : List Record) : List (Option String × Nat) :=
  let reasons :=
    (records.filter (fun r => r.stageName == "Closed Lost")).map (fun r => r.lossReason)
  sortBy (fun a b => decide (b.2 ≤ a.2))
    ((dedup reasons).map (fun r => (r, reasons.count r)))

/-- The rows of lines 216-222, reasons normalized. -/
def lossRows (records : List Record) : List ReasonCount :=
  (lossGroups records).map (fun g => ⟨normalizeReason g.1, g.2⟩)

/-- The zero-fill loop of lines 227-234 followed by the append. -/
def zeroFillReasons (rows : List ReasonCount) : List ReasonCount :=
  rows ++ lossReasons.filterMap (fun r =>
    if rows.any (fun x => x.reason == r) then none else some ⟨r, 0⟩)

/-- The loss-reason aggregation of lines 204-237.  As with the stage table,
an empty loss_reason_data list (no Closed Lost record at all) makes the
column access of line 228 raise KeyError on the empty DataFrame. -/
def aggregateLossReasons (records : List Record) : Except String (List ReasonCount) :=
  let rows := lossRows records
  if rows.isEmpty then Except.error "KeyError: Loss_Reason"
  else Except.ok (sortBy (fun a b => decide (b.count ≤ a.count)) (zeroFillReasons rows))

/-! Date parsing and the ISO-8601 week key, lines 263-268.  The source
parses CloseDate with datetime.strptime(s, "%Y-%m-%d") (raising ValueError
on malformed input) and computes date.isocalendar(), the ISO-8601 year and
week of the proleptic Gregorian calendar. -/

/-- A parsed calendar date. -/
structure Date where
  year : Nat
  month : Nat
  day : Nat
deriving DecidableEq

/-- Gregorian leap-year rule. -/
def isLeap (y : Nat) : Bool := (y % 4 == 0 && y % 100 != 0) || y % 400 == 0

/-- Month lengths of a (leap or common) year. -/
def monthDays (leap : Bool) : List Nat :=
  [31, if leap then 29 else 28, 31, 30, 31, 30, 31, 31, 30, 31, 30, 31]

/-- Number of days of month m of year y (months counted from 1). -/
def daysInMonth (y m : Nat) : Nat := (monthDays (isLeap y)).getD (m - 1) 31

/-- Ordinal of the date within its year (Jan 1 is 1). -/
def dayOfYear (d : Date) : Nat :=
  ((monthDays (isLeap d.year)).take (d.month - 1)).sum + d.day

/-- Number of leap years in 1..y. -/
def leapsBefore (y : Nat) : Nat := y / 4 - y / 100 + y / 400

/-- Proleptic Gregorian day number; day 1 is Jan 1 of year 1, which is a
Monday (as in datetime.date.toordinal). -/
def rataDie (d : Date) : Nat :=
  365 * (d.year - 1) + leapsBefore (d.year - 1) + dayOfYear d

/-- ISO weekday, Monday = 1 .. Sunday = 7 (datetime.date.isoweekday). -/
def isoWeekday (d : Date) : Nat := (rataDie d - 1) % 7 + 1

/-- Number of ISO weeks of year y: 53 exactly when the year starts or ends
on a Thursday, via the standard p(y) congruence. -/
def isoWeeksIn (y : Nat) : Nat :=
  if (y + y / 4 - y / 100 + y / 400) % 7 == 4
      || (y - 1 + (y - 1) / 4 - (y - 1) / 100 + (y - 1) / 400) % 7 == 3
  then 53 else 52

/-- ISO-8601 year and week of a date (datetime.date.isocalendar, first two
components): weeks run Monday to Sunday, week 1 of a year is the week
holding the first Thursday of that year, and boundary dates can belong to
the previous or next ISO year. -/
def isoYearWeek (d : Date) : Nat × Nat :=
  let w := (dayOfYear d + 10 - isoWeekday d) / 7
  if w = 0 then (d.year - 1, isoWeeksIn (d.year - 1))
  else if w = 53 && isoWeeksIn d.year == 52 then (d.year + 1, 1)
  else (d.year, w)

/-- Two-digit zero padding of the week number, the :02d of line 268. -/
def pad2 (n : Nat) : String := if n < 10 then "0" ++ toString n else toString n

/-- The week bucket key f-string of line 268. -/
def weekKey (d : Date) : String :=
  let yw := isoYearWeek d
  toString yw.1 ++ "-W" ++ pad2 yw.2

/-- Decimal digit test on the ASCII code of a character. -/
def isDig (c : Char) : Bool := 48 ≤ c.toNat && c.toNat ≤ 57

/-- Numeric value of a digit string. -/
def digitsVal (cs : List Char) : Nat :=
  cs.foldl (fun n c => n * 10 + (c.toNat - 48)) 0

/-- Split a character list on the dash separator (the shape strptime
expects for the %Y-%m-%d pattern). -/
def splitDashes : List Char → List (List Char)
  | [] => [[]]
  | c :: cs =>
    if c = '-' then [] :: splitDashes cs
    else
      match splitDashes cs with
      | [] => [[c]]
      | g :: gs => (c :: g) :: gs

/-- datetime.strptime(s, "%Y-%m-%d").date(): three dash-separated decimal
fields (four-digit year, one- or two-digit month and day) forming a valid
calendar date; anything else raises ValueError, modelled as none. -/
def parseDate (s : String) : Option Date :=
  match splitDashes s.toList with
  | [ys, ms, ds] =>
    if ys.all isDig && (ys.length == 4)
        && ms.all isDig && decide (1 ≤ ms.length) && decide (ms.length ≤ 2)
        && ds.all isDig && decide (1 ≤ ds.length) && decide (ds.length ≤ 2) then
      let y := digitsVal ys
      let m := digitsVal ms
      let d := digitsVal ds
      if decide (1 ≤ m) && decide (m ≤ 12) && decide (1 ≤ d) && decide (d ≤ daysInMonth y m)
      then some ⟨y, m, d⟩ else none
    else none
  | _ => none

/-! Weekly aggregation, lines 256-311. -/

/-- Lexicographic comparison of character lists by code point. -/
def chLe : List Char → List Char → Bool
  | [], _ => true
  | _ :: _, [] => false
  | x :: xs, y :: ys =>
    if x.toNat < y.toNat then true
    else if y.toNat < x.toNat then false
    else chLe xs ys

/-- String comparison by code points, as the Python sorted builtin compares
the week key strings in line 282. -/
def strLe (a b : String) : Bool := chLe a.toList b.toList

/-- Column-name sanitization of line 294: every non-alphanumeric character
becomes an underscore.  The source uses Python str.isalnum; ASCII
alphanumerics (all that occur in stage names here) are modelled. -/
def sanitize (s : String) : String :=
  ⟨s.toList.map (fun c =>
    if (48 ≤ c.toNat && c.toNat ≤ 57) || (65 ≤ c.toNat && c.toNat ≤ 90)
        || (97 ≤ c.toNat && c.toNat ≤ 122)
    then c else '_')⟩

/-- Dict assignment week_data[column_name] = stage_count of line 295: update
the value in place when the key exists, append otherwise. -/
def upsert (l : List (String × Nat)) (k : String) (v : Nat) : List (String × Nat) :=
  if l.any (fun p => p.1 == k) then l.map (fun p => if p.1 == k then (k, v) else p)
  else l ++ [(k, v)]

/-- One emitted weekly bucket (the week_data dict of lines 285-307): the
week key, the total, the per-stage columns in dict order under their
sanitized column names, and the derived ClosedWon / ClosedLost /
OtherStages / WinRate values. -/
structure WeekData where
  week : String
  total : Nat
  stageCounts : List (String × Nat)
  closedWon : Nat
  closedLost : Nat
  otherStages : Int
  winRate : ℚ
deriving DecidableEq

/-- Default bucket value used only to state concrete witnesses. -/
def wdDefault : WeekData := ⟨"", 0, [], 0, 0, 0, 0⟩

/-- Keys of the stage_counts_by_week dict in insertion order: seeded with
every catalog stage (line 260), then any other observed stage name in
first encounter order (lines 275-276).  The argument pairs each parsed
record as (week key, stage name). -/
def stagesList (dated : List (String × String)) : List String :=
  catalogNames ++
    (dedup (dated.map (fun p => p.2))).filter (fun s => decide (s ∉ catalogNames))

/-- The week_data row of lines 283-307 for one week key.  Counts are read
off the tracking dicts: eligible_by_week counts every record of the week,
stage_counts_by_week[s] counts the records of the week with stage s.  The
stage columns are written through upsert under sanitized names, so a later
stage overwrites an earlier one whose sanitized name collides. -/
def mkWeek (dated : List (String × String)) (w : String) : WeekData :=
  let total := dated.countP (fun p => p.1 == w)
  let cols := (stagesList dated).foldl
    (fun acc s => upsert acc (sanitize s) (dated.countP (fun p => p.1 == w && p.2 == s))) []
  let cw := dated.countP (fun p => p.1 == w && p.2 == "Closed Won")
  let cl := dated.countP (fun p => p.1 == w && p.2 == "Closed Lost")
  ⟨w, total, cols, cw, cl, (total : Int) - (cw : Int) - (cl : Int),
    if 0 < total then (cw : ℚ) / (total : ℚ) * 100 else 0⟩

/-- The parse loop of lines 263-268: strptime then the ISO week key, the
loop aborting with ValueError at the first malformed close date (the
exception propagates out of connect_to_salesforce's try block). -/
def parseRecords : List Record → Except String (List (String × String))
  | [] => Except.ok []
  | r :: rs =>
    match parseDate r.closeDate with
    | none => Except.error ("ValueError: time data " ++ r.closeDate
        ++ " does not match format %Y-%m-%d")
    | some d =>
      match parseRecords rs with
      | Except.error e => Except.error e
      | Except.ok rest => Except.ok ((weekKey d, r.stageName) :: rest)

/-- The weekly aggregation of lines 256-311: parse and bucket every record,
then emit one row per observed week, weeks sorted ascending by key
string. -/
def aggregateWeekly (records : List Record) : Except String (List WeekData) :=
  match parseRecords records with
  | Except.error e => Except.error e
  | Except.ok dated =>
      Except.ok ((sortBy strLe (dedup (dated.map (fun p => p.1)))).map (mkWeek dated))

/-! Summary KPIs (lines 313-317 and 360) and the conversion table
(lines 533-556). -/

/-- The scalar KPIs: total, Closed Won count, Closed Lost count, the other
stages difference, and the win rate of line 360. -/
structure Summary where
  total : Nat
  closedWon : Nat
  closedLost : Nat
  otherStages : Int
  winRate : ℚ
deriving DecidableEq

/-- Lines 313-317 computed over the stage-count table, plus the win_rate
expression of line 360 (0 when the total is 0). -/
def summarize (rows : List StageCount) : Summary :=
  let total := (rows.map (fun r => r.count)).sum
  let cw := ((rows.filter (fun r => r.stageName == "Closed Won")).map (fun r => r.count)).sum
  let cl := ((rows.filter (fun r => r.stageName == "Closed Lost")).map (fun r => r.count)).sum
  ⟨total, cw, cl, (total : Int) - (cw : Int) - (cl : Int),
    if 0 < total then (cw : ℚ) / (total : ℚ) * 100 else 0⟩

/-- One row of the conversion table of lines 547-553. -/
structure ConversionPair where
  fromStage : String
  toStage : String
  fromCount : Nat
  toCount : Nat
  conversionRate : ℚ
deriving DecidableEq

/-- Default pair value used only to state concrete witnesses. -/
def cpDefault : ConversionPair := ⟨"", "", 0, 0, 0⟩

/-- The .iloc[0] lookup of lines 542-543: count of the first row carrying
the given stage name. -/
def firstCount (rows : List StageCount) (name : String) : Nat :=
  match rows.find? (fun r => r.stageName == name) with
  | some r => r.count
  | none => 0

/-- The conversion loop of lines 533-556: sort the stage table by Order,
then one row per adjacent index pair, with rate next/current*100 guarded to
0 when the current count is 0 (line 545). -/
def conversions (rows : List StageCount) : List ConversionPair :=
  let sorted := sortBy stageLe rows
  let names := sorted.map (fun r => r.stageName)
  (List.range (names.length - 1)).map (fun i =>
    let cur := names.getD i ""
    let nxt := names.getD (i + 1) ""
    let cc := firstCount sorted cur
    let nc := firstCount sorted nxt
    ⟨cur, nxt, cc, nc, if 0 < cc then (nc : ℚ) / (cc : ℚ) * 100 else 0⟩)

/-- The tuple returned by connect_to_salesforce (line 319), or by its
except branch (line 323). -/
structure DashboardResult where
  stageTable : List StageCount
  lossTable : List ReasonCount
  weeklyTable : List WeekData
  total : Nat
  closedWon : Nat
  closedLost : Nat
  otherStages : Int
deriving DecidableEq

/-- The pure content of connect_to_salesforce (lines 142-323): run the
three aggregations in source order and the summary over the stage table;
any raised error (the KeyError cases on empty tables, or ValueError on a
malformed close date) falls into the except branch of lines 321-323, which
returns empty tables and zero KPIs.  Upstream time-window filtering
belongs to the record source, so all three aggregations are modelled over
the supplied record collection. -/
def connectToSalesforce (records : List Record) : DashboardResult :=
  match aggregateStages records with
  | Except.error _ => ⟨[], [], [], 0, 0, 0, 0⟩
  | Except.ok st =>
    match aggregateLossReasons records with
    | Except.error _ => ⟨[], [], [], 0, 0, 0, 0⟩
    | Except.ok lr =>
      match aggregateWeekly records with
      | Except.error _ => ⟨[], [], [], 0, 0, 0, 0⟩
      | Except.ok wk =>
        let s := summarize st
        ⟨st, lr, wk, s.total, s.closedWon, s.closedLost, s.otherStages⟩

/-- Default row value used only to state concrete counterexamples. -/
def scDefault : StageCount := ⟨"", 0, 0, 0, ""⟩

/-! Concrete inputs used by the claim theorems below. -/

/-- One malformed close date amid well-formed records. -/
def c2records : List Record :=
  [⟨"a", "2025-01-06", "Closed Won", none⟩,
   ⟨"b", "13/01/2025", "New", none⟩,
   ⟨"c", "2025-01-07", "New", none⟩]

/-- The same collection with the malformed record removed. -/
def c2goodRecords : List Record :=
  [⟨"a", "2025-01-06", "Closed Won", none⟩, ⟨"c", "2025-01-07", "New", none⟩]

/-- A single record whose stage name is not in the catalog. -/
def c3records : List Record := [⟨"a", "2025-01-06", "Bogus Stage", none⟩]

/-- Ten records: six Closed Won, two Closed Lost, two Rating. -/
def c5records : List Record :=
  List.replicate 6 (⟨"w", "2025-01-06", "Closed Won", none⟩ : Record)
    ++ List.replicate 2 ⟨"l", "2025-01-06", "Closed Lost", some "Rate"⟩
    ++ List.replicate 2 ⟨"r", "2025-01-06", "Rating", none⟩

/-- Two records with distinct non-catalog stage names, both resolving to
the fallback order 99, in one input order and in the other. -/
def c7records : List Record :=
  [⟨"1", "2025-01-06", "ZZZ", none⟩, ⟨"2", "2025-01-06", "AAA", none⟩]

/-- c7records reversed. -/
def c7recordsRev : List Record :=
  [⟨"2", "2025-01-06", "AAA", none⟩, ⟨"1", "2025-01-06", "ZZZ", none⟩]

/-- Three Closed Lost records with reasons Rate, Rate, null. -/
def c8records : List Record :=
  [⟨"1", "2025-01-06", "Closed Lost", some "Rate"⟩,
   ⟨"2", "2025-01-06", "Closed Lost", some "Rate"⟩,
   ⟨"3", "2025-01-06", "Closed Lost", none⟩]

/-- Two same-week records whose distinct stage names share the sanitized
column name A_B. -/
def c10records : List Record :=
  [⟨"1", "2025-01-06", "A B", none⟩, ⟨"2", "2025-01-06", "A_B", none⟩]

/-- C1: on the empty record collection the source does not return
zero-filled aggregate skeletons.  stage_data is empty, so the column access
set(stage_df[StageName]) of line 186 raises KeyError on the empty
DataFrame, the except branch of lines 321-323 runs, and the caller receives
three entirely empty tables together with all-zero KPIs.  The KPIs are zero
as the claim says, but the stage table and the loss-reason table are empty
instead of holding every catalog stage and reason with count 0. -/
theorem empty_input_returns_empty_tables :
    aggregateStages ([] : List Record) = Except.error "KeyError: StageName" ∧
    connectToSalesforce ([] : List Record) = ⟨[], [], [], 0, 0, 0, 0⟩ :=
  ⟨rfl, by decide⟩

/-- C2: a single unparseable close date aborts the whole weekly
aggregation.  The strptime call of line 265 raises ValueError on the second
record of c2records, the exception leaves the record loop, and no weekly
bucket at all is produced (first conjunct), even though the remaining two
records on their own aggregate fine (second conjunct).  The claim's
per-record rejection with continuation is not what the code does. -/
theorem malformed_date_aborts_whole_pass :
    aggregateWeekly c2records =
      Except.error "ValueError: time data 13/01/2025 does not match format %Y-%m-%d" ∧
    ((aggregateWeekly c2goodRecords).toOption.getD []).map (fun b => b.week) = ["2025-W02"] :=
  ⟨rfl, by decide⟩

/-- C3 counterexample: a record whose stage name Bogus Stage is absent from
the catalog produces a stage table with 13 rows, the 12 catalog rows plus
one extra row carrying the non-catalog name, so the output does not consist
of exactly one row per catalog stage. -/
theorem unknown_stage_adds_extra_row :
    ((aggregateStages c3records).toOption.getD []).map (fun r => r.stageName) =
      catalogNames ++ ["Bogus Stage"] ∧
    ((aggregateStages c3records).toOption.getD []).length = 13 ∧
    catalogNames.length = 12 := by
  decide

/-- C4: the weekly bucket key follows the ISO-8601 week numbering rule in
the YYYY-Www two-digit format: Dec 31 2024 buckets into 2025-W01, Jan 5
2025 into 2025-W01, and Jan 6 2025 into 2025-W02, both for the raw key
computation of lines 266-268 and through the full weekly aggregation of a
single-record collection. -/
theorem iso_week_boundary_examples :
    weekKey ⟨2024, 12, 31⟩ = "2025-W01" ∧
    weekKey ⟨2025, 1, 5⟩ = "2025-W01" ∧
    weekKey ⟨2025, 1, 6⟩ = "2025-W02" ∧
    ((aggregateWeekly [⟨"a", "2024-12-31", "New", none⟩]).toOption.getD []).map
      (fun b => b.week) = ["2025-W01"] ∧
    ((aggregateWeekly [⟨"a", "2025-01-05", "New", none⟩]).toOption.getD []).map
      (fun b => b.week) = ["2025-W01"] ∧
    ((aggregateWeekly [⟨"a", "2025-01-06", "New", none⟩]).toOption.getD []).map
      (fun b => b.week) = ["2025-W02"] := by
  decide

/-- C5: on ten records, six Closed Won, two Closed Lost and two Rating, the
summary of lines 313-317 and 360 over the aggregated stage table yields
total 10, closedWon 6, closedLost 2, otherStages 2 and winRate 60. -/
theorem summary_scenario_ten_records :
    summarize ((aggregateStages c5records).toOption.getD []) = ⟨10, 6, 2, 2, 60⟩ := by
  have h1 : (((aggregateStages c5records).toOption.getD []).map (fun r => r.count)).sum = 10 := by
    decide
  have h2 : ((((aggregateStages c5records).toOption.getD []).filter
      (fun r => r.stageName == "Closed Won")).map (fun r => r.count)).sum = 6 := by decide
  have h3 : ((((aggregateStages c5records).toOption.getD []).filter
      (fun r => r.stageName == "Closed Lost")).map (fun r => r.count)).sum = 2 := by decide
  simp only [summarize]
  rw [h1, h2, h3]
  norm_num

/-- Helper: the filtered count sum of lines 315-316 never exceeds the total
count sum of line 314. -/
theorem sum_filter_le (l : List StageCount) (q : StageCount → Bool) :
    ((l.filter q).map (fun r => r.count)).sum ≤ (l.map (fun r => r.count)).sum := by
  induction l with
  | nil => simp
  | cons x xs ih =>
    by_cases h : q x
    · simp only [List.filter_cons, if_pos h, List.map_cons, List.sum_cons]
      omega
    · simp only [List.filter_cons, if_neg h, List.map_cons, List.sum_cons]
      omega

/-- Helper: the guarded percentage of lines 307 and 360 lies in [0, 100]
whenever the numerator is at most the denominator, and is 0 at a zero
denominator. -/
theorem rate_bounds_aux (cw total : Nat) (h : cw ≤ total) :
    0 ≤ (if 0 < total then (cw : ℚ) / (total : ℚ) * 100 else 0) ∧
    (if 0 < total then (cw : ℚ) / (total : ℚ) * 100 else 0) ≤ 100 ∧
    (total = 0 → (if 0 < total then (cw : ℚ) / (total : ℚ) * 100 else 0) = 0) := by
  rcases Nat.eq_zero_or_pos total with h0 | h0
  · subst h0; norm_num
  · rw [if_pos h0]
    have h2 : (0 : ℚ) < (total : ℚ) := by exact_mod_cast h0
    have h1 : (cw : ℚ) ≤ (total : ℚ) := by exact_mod_cast h
    refine ⟨by positivity, ?_, fun hc => absurd (hc ▸ h0) (lt_irrefl 0)⟩
    have hd : (cw : ℚ) / (total : ℚ) ≤ 1 := (div_le_one h2).2 h1
    calc (cw : ℚ) / (total : ℚ) * 100 ≤ 1 * 100 :=
          mul_le_mul_of_nonneg_right hd (by norm_num)
      _ = 100 := one_mul _

/-- C6: every weekly bucket win rate and the summary win rate lie between 0
and 100, and a zero total gives rate 0 via the guard of lines 307 and 360
rather than a division fault. -/
theorem win_rate_bounds (records : List Record) (bs : List WeekData) (b : WeekData)
    (rows : List StageCount)
    (hw : aggregateWeekly records = Except.ok bs) (hb : b ∈ bs)
    (hs : aggregateStages records = Except.ok rows) :
    (0 ≤ b.winRate ∧ b.winRate ≤ 100 ∧ (b.total = 0 → b.winRate = 0)) ∧
    (0 ≤ (summarize rows).winRate ∧ (summarize rows).winRate ≤ 100 ∧
      ((summarize rows).total = 0 → (summarize rows).winRate = 0)) := by
  constructor
  · rcases hpr : parseRecords records with e | dated
    · rw [aggregateWeekly, hpr] at hw
      simp at hw
    · rw [aggregateWeekly, hpr] at hw
      have hbs : (sortBy strLe (dedup (dated.map (fun p => p.1)))).map (mkWeek dated) = bs := by
        injection hw
      subst hbs
      rcases List.mem_map.1 hb with ⟨w, hwmem, rfl⟩
      have hcw : dated.countP (fun p => p.1 == w && p.2 == "Closed Won")
          ≤ dated.countP (fun p => p.1 == w) := by
        refine List.countP_mono_left ?_
        intro x hx hpx
        simp only [Bool.and_eq_true] at hpx
        exact hpx.1
      have hres := rate_bounds_aux _ _ hcw
      simpa [mkWeek] using hres
  · have hcw := sum_filter_le rows (fun r => r.stageName == "Closed Won")
    have hres := rate_bounds_aux _ _ hcw
    simpa [summarize] using hres

/-- A single Closed Won record, used to witness C6. -/
def c6records : List Record := [⟨"1", "2025-01-06", "Closed Won", none⟩]

/-- Witness for C6 at the one-record collection c6records. -/
theorem win_rate_bounds_witness :
    (0 ≤ (((aggregateWeekly c6records).toOption.getD []).headD wdDefault).winRate ∧
      (((aggregateWeekly c6records).toOption.getD []).headD wdDefault).winRate ≤ 100 ∧
      ((((aggregateWeekly c6records).toOption.getD []).headD wdDefault).total = 0 →
        (((aggregateWeekly c6records).toOption.getD []).headD wdDefault).winRate = 0)) ∧
    (0 ≤ (summarize ((aggregateStages c6records).toOption.getD [])).winRate ∧
      (summarize ((aggregateStages c6records).toOption.getD [])).winRate ≤ 100 ∧
      ((summarize ((aggregateStages c6records).toOption.getD [])).total = 0 →
        (summarize ((aggregateStages c6records).toOption.getD [])).winRate = 0)) :=
  win_rate_bounds c6records ((aggregateWeekly c6records).toOption.getD [])
    (((aggregateWeekly c6records).toOption.getD []).headD wdDefault)
    ((aggregateStages c6records).toOption.getD [])
    rfl (List.Mem.head _) rfl

/-- C7 counterexample: two non-catalog stage names ZZZ and AAA both carry
the fallback order 99, yet the output lists them in input encounter order,
ZZZ before AAA, rather than breaking the tie by stage name; reversing the
input record order reverses them, so the output order depends on the input
record order. -/
theorem stage_order_ties_not_broken_by_name :
    ((aggregateStages c7records).toOption.getD []).map (fun r => r.stageName) =
      catalogNames ++ ["ZZZ", "AAA"] ∧
    ((aggregateStages c7recordsRev).toOption.getD []).map (fun r => r.stageName) =
      catalogNames ++ ["AAA", "ZZZ"] ∧
    (((aggregateStages c7records).toOption.getD []).getD 12 scDefault).order = 99 ∧
    (((aggregateStages c7records).toOption.getD []).getD 13 scDefault).order = 99 := by
  decide

/-- C8: the loss-reason aggregation over three Closed Lost records with
reasons Rate, Rate and null yields Rate with count 2, the null reason
normalized to Not Specified with count 1, every other enumerated catalog
reason zero-filled, and the rows sorted descending by count. -/
theorem loss_reason_scenario :
    (aggregateLossReasons c8records).toOption.getD [] =
      [⟨"Rate", 2⟩, ⟨"Not Specified", 1⟩,
       ⟨"4 Point Issues", 0⟩, ⟨"AOR", 0⟩, ⟨"Choosing to Self-Insure", 0⟩,
       ⟨"Flood not required - for flood only", 0⟩, ⟨"I was lazy", 0⟩,
       ⟨"No Buyers Information Received", 0⟩, ⟨"No Inspections Received", 0⟩,
       ⟨"No Market", 0⟩, ⟨"No Response from Buyer", 0⟩, ⟨"Paid off Mortgage", 0⟩,
       ⟨"Rate / Went with another agency", 0⟩,
       ⟨"Rate - No Updated Inspections Received", 0⟩, ⟨"Sale Fell Through", 0⟩,
       ⟨"Service / went with another agency", 0⟩, ⟨"Sold", 0⟩, ⟨"Unknown", 0⟩,
       ⟨"Property Damaged Or Lost", 0⟩] ∧
    ((aggregateLossReasons c8records).toOption.getD []).Pairwise
      (fun a b => b.count ≤ a.count) := by
  decide

/-- C10 counterexample: the stage names A B and A_B sanitize to the same
column name, the second write of line 295 overwrites the first, and the
emitted bucket's per-stage counts sum to 1 while the week's total is 2. -/
theorem sanitized_column_collision_loses_count :
    ((((aggregateWeekly c10records).toOption.getD []).headD wdDefault).stageCounts.map
      (fun p => p.2)).sum = 1 ∧
    (((aggregateWeekly c10records).toOption.getD []).headD wdDefault).total = 2 := by
  decide

/-- Helper: the guarded ratio of line 545 written with the positivity test,
restated with the equality-to-zero test of the claims. -/
theorem rate_if_form (cc nc : Nat) :
    (if 0 < cc then (nc : ℚ) / (cc : ℚ) * 100 else 0) =
      if cc = 0 then 0 else (nc : ℚ) / (cc : ℚ) * 100 := by
  rcases Nat.eq_zero_or_pos cc with h | h
  · simp [h]
  · simp [h, h.ne']

/-- C9: the conversion table has one row per adjacent pair of stage rows
sorted by order (rows.length - 1 pairs), and every emitted pair carries
conversionRate = toCount / fromCount * 100, with rate 0 instead of an error
when fromCount is 0. -/
theorem conversion_pairs_spec (rows : List StageCount) (p : ConversionPair)
    (hp : p ∈ conversions rows) :
    (conversions rows).length = rows.length - 1 ∧
    p.conversionRate =
      if p.fromCount = 0 then 0 else (p.toCount : ℚ) / (p.fromCount : ℚ) * 100 := by
  constructor
  · simp [conversions, length_sortBy]
  · simp only [conversions] at hp
    rcases List.mem_map.1 hp with ⟨i, hi, rfl⟩
    exact rate_if_form _ _

/-- Adjacent stages with counts 100 and 40. -/
def c9rowsA : List StageCount :=
  [⟨"New", 100, 10, 1, "Open"⟩, ⟨"Information Gathering", 40, 20, 2, "Open"⟩]

/-- Adjacent stages with a zero fromCount. -/
def c9rowsB : List StageCount :=
  [⟨"New", 0, 10, 1, "Open"⟩, ⟨"Information Gathering", 5, 20, 2, "Open"⟩]

/-- Witness for C9: on a two-row table with counts 100 and 40 the single
conversion pair has rate 40, and with fromCount 0 the rate is 0. -/
theorem conversion_pairs_spec_witness :
    (conversions c9rowsA).length = c9rowsA.length - 1 ∧
    ((conversions c9rowsA).headD cpDefault).fromCount = 100 ∧
    ((conversions c9rowsA).headD cpDefault).toCount = 40 ∧
    ((conversions c9rowsA).headD cpDefault).conversionRate = 40 ∧
    ((conversions c9rowsB).headD cpDefault).conversionRate = 0 := by
  have hA := conversion_pairs_spec c9rowsA ((conversions c9rowsA).headD cpDefault)
    (List.Mem.head _)
  have hB := conversion_pairs_spec c9rowsB ((conversions c9rowsB).headD cpDefault)
    (List.Mem.head _)
  have hfA : ((conversions c9rowsA).headD cpDefault).fromCount = 100 := by decide
  have htA : ((conversions c9rowsA).headD cpDefault).toCount = 40 := by decide
  have hfB : ((conversions c9rowsB).headD cpDefault).fromCount = 0 := by decide
  refine ⟨hA.1, hfA, htA, ?_, ?_⟩
  · rw [hA.2, hfA, htA]; norm_num
  · rw [hB.2, hfB]; norm_num


/-- Helper: dedup keeps exactly one copy of every element of the list. -/
theorem count_dedup {α : Type} [DecidableEq α] (l : List α) (a : α) :
    (dedup l).count a = if a ∈ l then 1 else 0 := by
  by_cases h : a ∈ l
  · rw [if_pos h]
    exact List.count_eq_one_of_mem (nodup_dedup l) ((mem_dedup l a).2 h)
  · rw [if_neg h]
    exact List.count_eq_zero_of_not_mem (fun hc => h ((mem_dedup l a).1 hc))

/-- Helper: the StageName column of a data row is its group key. -/
theorem mkDataRow_stageName (s : String) (c : Nat) : (mkDataRow s c).stageName = s := rfl

/-- Helper: the data rows of lines 167-180 hold exactly one row per
distinct input stage name. -/
theorem countP_stageRows (records : List Record) (s : String) :
    (stageRows records).countP (fun r => r.stageName == s) =
      if s ∈ inputStages records then 1 else 0 := by
  rw [stageRows, List.countP_map]
  have hc : (dedup (inputStages records)).countP
      ((fun r => r.stageName == s) ∘
        (fun t => mkDataRow t ((inputStages records).count t)))
      = (dedup (inputStages records)).count s := rfl
  rw [hc, count_dedup]

/-- Helper: the membership test of line 188 over the data rows agrees with
membership among the input stage names. -/
theorem any_stageRows_iff (records : List Record) (s : String) :
    (stageRows records).any (fun r => r.stageName == s) = true ↔ s ∈ inputStages records := by
  rw [List.any_eq_true]
  constructor
  · rintro ⟨r, hr, hrs⟩
    rw [stageRows] at hr
    rcases List.mem_map.1 hr with ⟨t, ht, rfl⟩
    have hts : t = s := by simpa [mkDataRow_stageName] using hrs
    exact hts ▸ (mem_dedup _ t).1 ht
  · intro h
    refine ⟨mkDataRow s ((inputStages records).count s), ?_, ?_⟩
    · rw [stageRows]
      exact List.mem_map_of_mem _ ((mem_dedup _ s).2 h)
    · simp [mkDataRow_stageName]

/-- Helper: on catalog entries the lookup of line 172 returns the entry
itself. -/
theorem lookup_catalog : ∀ p ∈ stageMetadata, lookupStage p.1 = p.2 := by decide

/-- Helper: catalog stage names are pairwise distinct. -/
theorem catalog_nodup : catalogNames.Nodup := by decide

/-- Helper: the zero-fill loop writes, in catalog order, exactly one
fallback-free row per catalog stage that has no data row yet. -/
theorem missing_rows_eq_aux (rows : List StageCount) :
    ∀ md : List (String × StageMeta), (∀ p ∈ md, lookupStage p.1 = p.2) →
      md.filterMap (fun p =>
          if rows.any (fun r => r.stageName == p.1) then none
          else some (⟨p.1, 0, p.2.probability, p.2.order, p.2.category⟩ : StageCount))
        = ((md.map (fun p => p.1)).filter
            (fun t => !(rows.any (fun r => r.stageName == t)))).map
          (fun t => mkDataRow t 0) := by
  intro md
  induction md with
  | nil => intro hlk; simp
  | cons p md ih =>
    intro hlk
    have hlkp := hlk p (List.mem_cons_self p md)
    have hrest := ih (fun q hq => hlk q (List.mem_cons_of_mem p hq))
    rw [List.map_cons]
    by_cases hany : rows.any (fun r => r.stageName == p.1) = true
    · rw [@List.filterMap_cons_none _ _
        (fun q => if rows.any (fun r => r.stageName == q.1) then none
          else some (⟨q.1, 0, q.2.probability, q.2.order, q.2.category⟩ : StageCount))
        p md (by simp [hany])]
      rw [@List.filter_cons_of_neg _
        (fun t => !(rows.any (fun r => r.stageName == t))) p.1
        (md.map (fun q => q.1)) (by simp [hany])]
      exact hrest
    · have hanyb : rows.any (fun r => r.stageName == p.1) = false :=
        Bool.eq_false_iff.2 hany
      rw [@List.filterMap_cons_some _ _
        (fun q => if rows.any (fun r => r.stageName == q.1) then none
          else some (⟨q.1, 0, q.2.probability, q.2.order, q.2.category⟩ : StageCount))
        p md (⟨p.1, 0, p.2.probability, p.2.order, p.2.category⟩ : StageCount)
        (by simp [hanyb])]
      rw [@List.filter_cons_of_pos _
        (fun t => !(rows.any (fun r => r.stageName == t))) p.1
        (md.map (fun q => q.1)) (by simp [hanyb])]
      rw [List.map_cons]
      exact congrArg₂ List.cons (by rw [mkDataRow, hlkp]) hrest

/-- Helper: missingRows as a filter of the catalog names. -/
theorem missing_rows_eq (rows : List StageCount) :
    missingRows rows =
      (catalogNames.filter (fun t => !(rows.any (fun r => r.stageName == t)))).map
        (fun t => mkDataRow t 0) :=
  missing_rows_eq_aux rows stageMetadata lookup_catalog

/-- Helper: the appended zero rows hold exactly one row per catalog stage
absent from the data rows. -/
theorem countP_missingRows (rows : List StageCount) (s : String) :
    (missingRows rows).countP (fun r => r.stageName == s) =
      if s ∈ catalogNames ∧ rows.any (fun r => r.stageName == s) = false
      then 1 else 0 := by
  rw [missing_rows_eq, List.countP_map]
  have hc : ((catalogNames.filter (fun t => !(rows.any (fun r => r.stageName == t)))).countP
      ((fun r => r.stageName == s) ∘ (fun t => mkDataRow t 0)))
      = (catalogNames.filter (fun t => !(rows.any (fun r => r.stageName == t)))).count s := rfl
  rw [hc]
  by_cases hcase : s ∈ catalogNames ∧ rows.any (fun r => r.stageName == s) = false
  · rw [if_pos hcase]
    refine List.count_eq_one_of_mem (catalog_nodup.filter _) ?_
    rw [List.mem_filter]
    exact ⟨hcase.1, by rw [hcase.2]; rfl⟩
  · rw [if_neg hcase]
    refine List.count_eq_zero_of_not_mem ?_
    intro hc2
    rw [List.mem_filter] at hc2
    exact hcase ⟨hc2.1, by
      have := hc2.2
      cases hb : rows.any (fun r => r.stageName == s)
      · rfl
      · rw [hb] at this; exact absurd this (by decide)⟩

/-- C3 amended: whenever the stage aggregation returns a table (the input
is nonempty), that table holds, for every stage name s, exactly one row
with name s when s is a catalog stage or a stage name occurring in the
input, and no row otherwise: one row per catalog stage plus one extra row
per distinct non-catalog input stage, with no duplicates. -/
theorem stage_table_row_characterization (records : List Record) (l : List StageCount)
    (s : String) (h : aggregateStages records = Except.ok l) :
    l.countP (fun r => r.stageName == s) =
      if s ∈ catalogNames ∨ s ∈ inputStages records then 1 else 0 := by
  simp only [aggregateStages] at h
  split at h
  · simp at h
  · have hl : sortBy stageLe (zeroFillStages (stageRows records)) = l := by injection h
    subst hl
    rw [(perm_sortBy stageLe _).countP_eq]
    rw [zeroFillStages, List.countP_append, countP_stageRows, countP_missingRows]
    by_cases hin : s ∈ inputStages records
    · have hany : (stageRows records).any (fun r => r.stageName == s) = true :=
        (any_stageRows_iff records s).2 hin
      simp [hin, hany]
    · have hany : (stageRows records).any (fun r => r.stageName == s) = false :=
        Bool.eq_false_iff.2 (fun hc => hin ((any_stageRows_iff records s).1 hc))
      by_cases hcat : s ∈ catalogNames
      · simp [hin, hcat, hany]
      · simp [hin, hcat, hany]

/-- Witness for the C3 amended claim at the one-record collection
c6records and the catalog stage New. -/
theorem stage_table_row_characterization_witness :
    ((aggregateStages c6records).toOption.getD []).countP
        (fun r => r.stageName == "New") =
      if "New" ∈ catalogNames ∨ "New" ∈ inputStages c6records then 1 else 0 :=
  stage_table_row_characterization c6records ((aggregateStages c6records).toOption.getD [])
    "New" rfl


/-- Helper: sums distribute over pointwise addition. -/
theorem sum_map_addN {α : Type} (l : List α) (f g : α → Nat) :
    (l.map (fun x => f x + g x)).sum = (l.map f).sum + (l.map g).sum := by
  induction l with
  | nil => simp
  | cons x xs ih =>
    simp only [List.map_cons, List.sum_cons, ih]
    omega

/-- Helper: an indicator sum over a list missing the key is 0. -/
theorem sum_indicator_zero (a : String) :
    ∀ stages : List String, a ∉ stages →
      (stages.map (fun s => if (a == s) = true then 1 else 0)).sum = 0 := by
  intro stages
  induction stages with
  | nil => intro _; simp
  | cons s ss ih =>
    intro ha
    have h1 : a ≠ s := fun hc => ha (hc ▸ List.mem_cons_self s ss)
    have h2 : a ∉ ss := fun hc => ha (List.mem_cons_of_mem s hc)
    simp only [List.map_cons, List.sum_cons, ih h2]
    simp [h1]

/-- Helper: an indicator sum over a duplicate-free list holding the key
is 1. -/
theorem sum_indicator_one (a : String) :
    ∀ stages : List String, stages.Nodup → a ∈ stages →
      (stages.map (fun s => if (a == s) = true then 1 else 0)).sum = 1 := by
  intro stages
  induction stages with
  | nil => intro _ ha; exact absurd ha (List.not_mem_nil a)
  | cons s ss ih =>
    intro hnd ha
    rcases List.nodup_cons.1 hnd with ⟨hs, hnd2⟩
    by_cases hc : a = s
    · subst hc
      simp only [List.map_cons, List.sum_cons]
      rw [sum_indicator_zero a ss hs]
      simp
    · rcases List.mem_cons.1 ha with h | h
      · exact absurd h hc
      · simp only [List.map_cons, List.sum_cons, ih hnd2 h]
        simp [hc]

/-- Helper: summing the per-stage week counts over a duplicate-free stage
list covering every record gives the week total: each record of the week
is counted in exactly one stage bucket of lines 271-278. -/
theorem sum_countP_stages (w : String) (stages : List String) (hnd : stages.Nodup) :
    ∀ dated : List (String × String), (∀ p ∈ dated, p.2 ∈ stages) →
      (stages.map (fun s => dated.countP (fun p => p.1 == w && p.2 == s))).sum
        = dated.countP (fun p => p.1 == w) := by
  intro dated
  induction dated with
  | nil => intro _; simp
  | cons x xs ih =>
    intro hcov
    have hx := hcov x (List.mem_cons_self x xs)
    have hxs : ∀ p ∈ xs, p.2 ∈ stages := fun p hp => hcov p (List.mem_cons_of_mem x hp)
    simp only [List.countP_cons]
    rw [show (stages.map (fun s => xs.countP (fun p => p.1 == w && p.2 == s)
          + if (x.1 == w && x.2 == s) = true then 1 else 0)).sum
        = (stages.map (fun s => xs.countP (fun p => p.1 == w && p.2 == s))).sum
          + (stages.map (fun s => if (x.1 == w && x.2 == s) = true then 1 else 0)).sum
      from sum_map_addN stages _ _]
    rw [ih hxs]
    by_cases hw : (x.1 == w) = true
    · have h1 : (stages.map (fun s => if (x.1 == w && x.2 == s) = true then 1 else 0))
          = stages.map (fun s => if (x.2 == s) = true then 1 else 0) := by
        refine List.map_congr_left ?_
        intro s hs
        rw [hw, Bool.true_and]
      rw [h1, sum_indicator_one x.2 stages hnd hx, if_pos hw]
    · have hwf : (x.1 == w) = false := Bool.eq_false_iff.2 hw
      have h1 : (stages.map (fun s => if (x.1 == w && x.2 == s) = true then 1 else 0))
          = stages.map (fun s => 0) := by
        refine List.map_congr_left ?_
        intro s hs
        rw [hwf, Bool.false_and]
        rfl
      rw [h1, if_neg hw]
      simp

/-- Helper: the Closed Won and Closed Lost counts of a week (lines
298-299) are counts of disjoint record sets, so together they never exceed
the week total. -/
theorem two_countP_le (w : String) :
    ∀ dated : List (String × String),
      dated.countP (fun p => p.1 == w && p.2 == "Closed Won")
          + dated.countP (fun p => p.1 == w && p.2 == "Closed Lost")
        ≤ dated.countP (fun p => p.1 == w) := by
  intro dated
  induction dated with
  | nil => simp
  | cons x xs ih =>
    simp only [List.countP_cons]
    by_cases h2 : (x.2 == "Closed Won") = true
    · have h3 : (x.2 == "Closed Lost") = false := by
        rw [beq_iff_eq] at h2
        rw [h2]
        decide
      cases hb1 : (x.1 == w)
      · simp only [hb1, Bool.false_and]
        simp
        omega
      · simp only [hb1, Bool.true_and, h2, h3]
        simp
        omega
    · have h2f : (x.2 == "Closed Won") = false := Bool.eq_false_iff.2 h2
      cases hb1 : (x.1 == w) <;> cases hb3 : (x.2 == "Closed Lost") <;>
        simp only [hb1, hb3, h2f, Bool.false_and, Bool.true_and] <;> simp <;> omega

/-- Helper: a successful parse pass keeps the stage names of the records,
in order. -/
theorem parseRecords_stages :
    ∀ (records : List Record) (dated : List (String × String)),
      parseRecords records = Except.ok dated →
      dated.map (fun p => p.2) = records.map (fun r => r.stageName) := by
  intro records
  induction records with
  | nil =>
    intro dated h
    simp only [parseRecords] at h
    have : ([] : List (String × String)) = dated := by injection h
    subst this
    rfl
  | cons r rs ih =>
    intro dated h
    simp only [parseRecords] at h
    split at h
    · exact absurd h (by simp)
    · split at h
      · exact absurd h (by simp)
      · rename_i dv hdeq xscr rest hrec
        have hcons : (weekKey dv, r.stageName) :: rest = dated := by injection h
        subst hcons
        simp only [List.map_cons]
        rw [ih rest hrec]

/-- Helper: the stage_counts_by_week keys are pairwise distinct (a Python
dict cannot hold a key twice). -/
theorem stagesList_nodup (dated : List (String × String)) : (stagesList dated).Nodup := by
  rw [stagesList]
  refine List.Nodup.append catalog_nodup ((nodup_dedup _).filter _) ?_
  intro a ha hb
  rw [List.mem_filter] at hb
  have h2 := hb.2
  simp only [decide_eq_true_eq] at h2
  exact h2 ha

/-- Helper: when every observed stage is a catalog stage, the dict keys
are exactly the catalog names. -/
theorem stagesList_catalog (dated : List (String × String))
    (h : ∀ p ∈ dated, p.2 ∈ catalogNames) : stagesList dated = catalogNames := by
  rw [stagesList]
  have hfil : (dedup (dated.map (fun p => p.2))).filter
      (fun s => decide (s ∉ catalogNames)) = [] := by
    rw [List.filter_eq_nil_iff]
    intro a ha
    have hmem : a ∈ dated.map (fun p => p.2) := (mem_dedup _ _).1 ha
    rcases List.mem_map.1 hmem with ⟨p, hp, rfl⟩
    simp [h p hp]
  rw [hfil, List.append_nil]

/-- Helper: writing a fresh key into the week_data dict appends it. -/
theorem upsert_fresh (acc : List (String × Nat)) (k : String) (v : Nat)
    (h : acc.any (fun p => p.1 == k) = false) : upsert acc k v = acc ++ [(k, v)] := by
  rw [upsert, if_neg]
  rw [h]
  exact Bool.false_ne_true

/-- Helper: when the sanitized column names are pairwise distinct and
absent from the accumulator, the column-writing fold appends one column
per stage. -/
theorem foldl_upsert (f : String → Nat) :
    ∀ (ss : List String) (acc : List (String × Nat)),
      (ss.map sanitize).Nodup →
      (∀ s ∈ ss, acc.any (fun p => p.1 == sanitize s) = false) →
      ss.foldl (fun a s => upsert a (sanitize s) (f s)) acc
        = acc ++ ss.map (fun s => (sanitize s, f s)) := by
  intro ss
  induction ss with
  | nil => intro acc _ _; simp
  | cons s ss ih =>
    intro acc hnd hfresh
    rw [List.map_cons, List.nodup_cons] at hnd
    rcases hnd with ⟨hs, hnd2⟩
    simp only [List.foldl_cons]
    rw [upsert_fresh acc (sanitize s) (f s) (hfresh s (List.mem_cons_self s ss))]
    have hfresh2 : ∀ t ∈ ss,
        ((acc ++ [(sanitize s, f s)]).any (fun p => p.1 == sanitize t)) = false := by
      intro t ht
      rw [List.any_append, hfresh t (List.mem_cons_of_mem s ht)]
      simp only [Bool.false_or, List.any_cons, List.any_nil, Bool.or_false]
      rw [beq_eq_false_iff_ne]
      intro hc
      exact hs (hc ▸ List.mem_map_of_mem sanitize ht)
    rw [ih (acc ++ [(sanitize s, f s)]) hnd2 hfresh2]
    rw [List.map_cons, List.append_assoc]
    rfl

/-- C10 amended: in every emitted weekly bucket ClosedWon + ClosedLost is
at most the total and OtherStages is nonnegative; and whenever every input
stage name belongs to the catalog (so the sanitized column names of line
294 are pairwise distinct and no column is overwritten), the per-stage
counts of the bucket sum to the week total. -/
theorem weekly_bucket_count_conservation (records : List Record) (bs : List WeekData)
    (b : WeekData) (hw : aggregateWeekly records = Except.ok bs) (hb : b ∈ bs) :
    (b.closedWon + b.closedLost ≤ b.total ∧ 0 ≤ b.otherStages) ∧
    ((∀ r ∈ records, r.stageName ∈ catalogNames) →
      (b.stageCounts.map (fun p => p.2)).sum = b.total) := by
  rcases hpr : parseRecords records with e | dated
  · rw [aggregateWeekly, hpr] at hw
    simp at hw
  · rw [aggregateWeekly, hpr] at hw
    have hbs : (sortBy strLe (dedup (dated.map (fun p => p.1)))).map (mkWeek dated) = bs := by
      injection hw
    subst hbs
    rcases List.mem_map.1 hb with ⟨w, hwmem, rfl⟩
    have hle := two_countP_le w dated
    constructor
    · constructor
      · simpa [mkWeek] using hle
      · simp only [mkWeek]
        omega
    · intro hcat
      have hdated : ∀ p ∈ dated, p.2 ∈ catalogNames := by
        intro p hp
        have hmap := parseRecords_stages records dated hpr
        have hmem : p.2 ∈ dated.map (fun q => q.2) := List.mem_map_of_mem _ hp
        rw [hmap] at hmem
        rcases List.mem_map.1 hmem with ⟨r, hr, hpr2⟩
        exact hpr2 ▸ hcat r hr
      have hsl := stagesList_catalog dated hdated
      simp only [mkWeek, hsl]
      rw [foldl_upsert (fun s => dated.countP (fun p => p.1 == w && p.2 == s))
        catalogNames [] (by decide) (fun s hs => rfl)]
      rw [List.nil_append, List.map_map]
      have hcomp : ((fun p => p.2) ∘ fun s =>
          (sanitize s, dated.countP (fun p => p.1 == w && p.2 == s)))
          = fun s => dated.countP (fun p => p.1 == w && p.2 == s) := rfl
      rw [hcomp]
      exact sum_countP_stages w catalogNames catalog_nodup dated hdated

/-- Two catalog-stage records of one week, used to witness C10. -/
def c10wrecords : List Record :=
  [⟨"1", "2025-01-06", "Closed Won", none⟩, ⟨"2", "2025-01-06", "Rating", none⟩]

/-- Witness for the C10 amended claim at the two-record collection
c10wrecords. -/
theorem weekly_bucket_count_conservation_witness :
    (((((aggregateWeekly c10wrecords).toOption.getD []).headD wdDefault).closedWon
        + ((((aggregateWeekly c10wrecords).toOption.getD []).headD wdDefault)).closedLost
      ≤ (((aggregateWeekly c10wrecords).toOption.getD []).headD wdDefault).total) ∧
      0 ≤ (((aggregateWeekly c10wrecords).toOption.getD []).headD wdDefault).otherStages) ∧
    ((((aggregateWeekly c10wrecords).toOption.getD []).headD wdDefault).stageCounts.map
        (fun p => p.2)).sum
      = (((aggregateWeekly c10wrecords).toOption.getD []).headD wdDefault).total :=
  have h := weekly_bucket_count_conservation c10wrecords
    ((aggregateWeekly c10wrecords).toOption.getD [])
    (((aggregateWeekly c10wrecords).toOption.getD []).headD wdDefault)
    rfl (List.Mem.head _)
  ⟨h.1, h.2 (by decide)⟩


/-- Helper: the Order column of a data row comes from the catalog lookup
of line 172. -/
theorem mkDataRow_order (s : String) (c : Nat) :
    (mkDataRow s c).order = (lookupStage s).order := rfl

/-- Helper: the Order comparator as a proposition. -/
theorem stageLe_iff (a b : StageCount) : stageLe a b = true ↔ a.order ≤ b.order := by
  rw [stageLe, decide_eq_true_eq]

/-- Helper: the catalog lists its stages in strictly increasing order of
the order field. -/
theorem pairwise_canon_lt :
    catalogNames.Pairwise (fun a b => (lookupStage a).order < (lookupStage b).order) := by
  decide

/-- Helper: the zero-filled table is one data row per name of the
concatenated name list, each carrying its input occurrence count (0 for
the filled-in catalog stages). -/
theorem zeroFill_map_form (records : List Record) :
    zeroFillStages (stageRows records)
      = ((dedup (inputStages records)
          ++ catalogNames.filter
            (fun t => !((stageRows records).any (fun r => r.stageName == t)))).map
        (fun s => mkDataRow s ((inputStages records).count s))) := by
  rw [zeroFillStages, List.map_append]
  refine congrArg₂ (· ++ ·) rfl ?_
  rw [missing_rows_eq]
  refine List.map_congr_left ?_
  intro t ht
  rw [List.mem_filter] at ht
  have hnot : t ∉ inputStages records := by
    intro hc
    have := (any_stageRows_iff records t).2 hc
    rw [this] at ht
    exact absurd ht.2 (by decide)
  rw [List.count_eq_zero_of_not_mem hnot]

/-- Helper: when every input stage is a catalog stage, the names of the
zero-filled table are a permutation of the catalog names. -/
theorem names_perm_catalog (records : List Record)
    (hcat : ∀ r ∈ records, r.stageName ∈ catalogNames) :
    (dedup (inputStages records)
      ++ catalogNames.filter
        (fun t => !((stageRows records).any (fun r => r.stageName == t)))).Perm
      catalogNames := by
  have hkeys : ∀ k ∈ inputStages records, k ∈ catalogNames := by
    intro k hk
    rcases List.mem_map.1 hk with ⟨r, hr, rfl⟩
    exact hcat r hr
  have hnd1 : (dedup (inputStages records)).Nodup := nodup_dedup _
  have hnd2 : (catalogNames.filter
      (fun t => !((stageRows records).any (fun r => r.stageName == t)))).Nodup :=
    catalog_nodup.filter _
  have hdisj : (dedup (inputStages records)).Disjoint
      (catalogNames.filter
        (fun t => !((stageRows records).any (fun r => r.stageName == t)))) := by
    intro a ha hb
    rw [List.mem_filter] at hb
    have h1 : a ∈ inputStages records := (mem_dedup _ _).1 ha
    have h2 := (any_stageRows_iff records a).2 h1
    rw [h2] at hb
    exact absurd hb.2 (by decide)
  refine (List.perm_ext_iff_of_nodup (List.Nodup.append hnd1 hnd2 hdisj) catalog_nodup).2 ?_
  intro a
  rw [List.mem_append, List.mem_filter, mem_dedup]
  constructor
  · rintro (h | h)
    · exact hkeys a h
    · exact h.1
  · intro h
    by_cases hk : a ∈ inputStages records
    · exact Or.inl hk
    · refine Or.inr ⟨h, ?_⟩
      have hany : (stageRows records).any (fun r => r.stageName == a) = false :=
        Bool.eq_false_iff.2 (fun hc => hk ((any_stageRows_iff records a).1 hc))
      rw [hany]
      rfl

/-- C7 amended: the stage table is always sorted ascending by the Order
column (line 198); and when every input stage name belongs to the catalog
(so all order values are distinct), the output stage-name sequence is
exactly the catalog order, independent of the input record order.  Ties
between equal order values (non-catalog stages, all order 99) keep input
encounter order instead of being broken by stage name, as the
counterexample shows. -/
theorem stage_table_order_characterization (records : List Record) (l : List StageCount)
    (h : aggregateStages records = Except.ok l) :
    l.Pairwise (fun a b => a.order ≤ b.order) ∧
    ((∀ r ∈ records, r.stageName ∈ catalogNames) →
      l.map (fun r => r.stageName) = catalogNames) := by
  simp only [aggregateStages] at h
  split at h
  · simp at h
  · have hl : sortBy stageLe (zeroFillStages (stageRows records)) = l := by injection h
    subst hl
    have hsorted : (sortBy stageLe (zeroFillStages (stageRows records))).Pairwise
        (fun a b => a.order ≤ b.order) := by
      refine (pairwise_sortBy stageLe _ ?_ ?_).imp ?_
      · intro a b
        rw [stageLe_iff, stageLe_iff]
        exact Nat.le_total a.order b.order
      · intro a b c hab hbc
        rw [stageLe_iff] at hab hbc ⊢
        exact le_trans hab hbc
      · intro a b hab
        exact (stageLe_iff a b).1 hab
    refine ⟨hsorted, ?_⟩
    intro hcat
    have hperm : (sortBy stageLe (zeroFillStages (stageRows records))).Perm
        (catalogNames.map (fun s => mkDataRow s ((inputStages records).count s))) := by
      refine (perm_sortBy stageLe _).trans ?_
      rw [zeroFill_map_form records]
      exact (names_perm_catalog records hcat).map _
    have hcanon_lt : (catalogNames.map
        (fun s => mkDataRow s ((inputStages records).count s))).Pairwise
        (fun a b => a.order < b.order) := by
      rw [List.pairwise_map]
      refine pairwise_canon_lt.imp ?_
      intro a b hab
      rw [mkDataRow_order, mkDataRow_order]
      exact hab
    have hcanon_ne : (catalogNames.map
        (fun s => mkDataRow s ((inputStages records).count s))).Pairwise
        (fun a b => a.order ≠ b.order) :=
      hcanon_lt.imp (fun hab => Nat.ne_of_lt hab)
    have hne : (sortBy stageLe (zeroFillStages (stageRows records))).Pairwise
        (fun a b => a.order ≠ b.order) := by
      refine (hperm.pairwise_iff ?_).2 hcanon_ne
      intro a b hab
      exact hab.symm
    have hlt : (sortBy stageLe (zeroFillStages (stageRows records))).Pairwise
        (fun a b => a.order < b.order) := by
      refine (hsorted.and hne).imp ?_
      rintro a b ⟨h1, h2⟩
      exact lt_of_le_of_ne h1 h2
    haveI : IsAntisymm StageCount (fun a b => a.order < b.order) :=
      ⟨fun a b h1 h2 => absurd h2 (Nat.lt_asymm h1)⟩
    have heq : sortBy stageLe (zeroFillStages (stageRows records))
        = catalogNames.map (fun s => mkDataRow s ((inputStages records).count s)) :=
      List.eq_of_perm_of_sorted hperm hlt hcanon_lt
    rw [heq, List.map_map]
    have hcomp : ((fun r => r.stageName) ∘
        (fun s => mkDataRow s ((inputStages records).count s))) = id := rfl
    rw [hcomp, List.map_id]

/-- Witness for the C7 amended claim at the catalog-only collection
c10wrecords. -/
theorem stage_table_order_characterization_witness :
    ((aggregateStages c10wrecords).toOption.getD []).Pairwise
      (fun a b => a.order ≤ b.order) ∧
    ((aggregateStages c10wrecords).toOption.getD []).map (fun r => r.stageName)
      = catalogNames :=
  have h := stage_table_order_characterization c10wrecords
    ((aggregateStages c10wrecords).toOption.getD []) rfl
  ⟨h.1, h.2 (by decide)⟩

end Renewed
